import Mathlib

/-!
Shallow embedding of the Polymarket order-book reconstruction core.

The definitions below are translated from the repository's Python source:

* `src/services/market_book.py` — `MarketBook._update`, `MarketBook._construct_book`,
  `MarketBook._generate_states` (the historical fold);
* `src/services/order_book.py` — `OrderBook._update_price` is the same per-change
  algorithm as `MarketBook._update` (live variant), so one embedding covers both;
* `src/utils/utils.py` — the timestamp filter of `load_data_cache` used by
  `OrderBook.reset`.

Modelling conventions.  Python floats are modelled as exact rationals (`Rat`);
`round(x, 3)` is modelled by `round3`, round-half-to-even at three decimals.
Prices are kept as the raw decimal strings the feed carries, because the source
compares prices with `==` on strings (`price_dict["price"] == price`); their
numeric value, used only as a sort key and for arithmetic, is recovered by
`parseDec`.  A stored level size is only ever consumed through `float(...)`
(the source stores either the original string, `str(size)`, a float `size_diff`
or `str(-size_diff)`, and every later read converts with `float`), so a stored
size is modelled directly by its numeric value.  The absent prior state —
`NO_PREVIOUS_STATE` in the source — is the `none` of an `Option`, and the
`ValueError` raised for a delta without a prior state is the `noPriorState`
error of an `Except`.
-/

namespace Polymarket

/-- Value of a string of decimal digits, as Python `int` of the digit run
(used only on well-formed numerals; the source's `float()` raises on malformed
input, which does not arise in the claims). -/
def digitsVal (cs : List Char) : Nat :=
  cs.foldl (fun a c => a * 10 + (c.toNat - 48)) 0

/-- Exact rational subtraction, written through `mkRat` so that the kernel can
evaluate it on concrete inputs (`Rat.sub` is `@[irreducible]`); `ratSub_eq_sub`
below proves it is ordinary subtraction. -/
def ratSub (a b : Rat) : Rat :=
  mkRat (a.num * (b.den : Int) - b.num * (a.den : Int)) (a.den * b.den)

/-- Numeric value of an unsigned decimal numeral such as `0.40` or `30`:
the digits to the left and right of the point over the matching power of 10. -/
def parseDecNonneg (cs : List Char) : Rat :=
  let intPart := cs.takeWhile (fun c => c ≠ '.')
  match cs.dropWhile (fun c => c ≠ '.') with
  | [] => mkRat (digitsVal intPart) 1
  | _ :: frac =>
    mkRat (digitsVal intPart * 10 ^ frac.length + digitsVal frac) (10 ^ frac.length)

/-- Numeric value of a decimal string, modelling Python `float(s)` on the
decimal numerals the feed carries. -/
def parseDec (s : String) : Rat :=
  match s.data with
  | '-' :: rest => - parseDecNonneg rest
  | cs => parseDecNonneg cs

/-- Python `round` at zero decimals: round half to even. -/
def roundHalfEven (x : Rat) : Int :=
  let f : Int := x.floor
  let r : Rat := ratSub x (mkRat f 1)
  if r < mkRat 1 2 then f
  else if mkRat 1 2 < r then f + 1
  else if f % 2 = 0 then f else f + 1

/-- Python `round(x, 3)` on exact rationals: round half to even at the third
decimal.  `x * 1000` is written through `num`/`den` and the final division
through `mkRat`, again so the kernel can evaluate; `round3_eq` below
restates it with ordinary multiplication and division. -/
def round3 (x : Rat) : Rat :=
  mkRat (roundHalfEven (mkRat (x.num * 1000) x.den)) 1000

/-- One price level `{"price": ..., "size": ...}` of one side of a book.
The price is the raw decimal string (string-compared by the source); the size
is its numeric value (see the module comment). -/
structure PriceLevel where
  price : String
  size : Rat
deriving DecidableEq, Repr

/-- One entry of a `price_change` event's `changes` list: the raw
`price`, `side` and `size` strings. -/
structure Change where
  price : String
  side : String
  size : String
deriving DecidableEq, Repr

/-- A reconstructed book state: sorted bid levels, sorted ask levels and the
timestamp of the event that produced it. -/
structure BookState where
  bids : List PriceLevel
  asks : List PriceLevel
  timestamp : String
deriving DecidableEq, Repr

/-- The two event kinds `MarketBook._generate_states` lets through its
`valid_types` filter: full snapshots (`"book"`) and deltas (`"price_change"`).
Other wire kinds (`tick_size_change`, `last_trade_price`) are dropped before
the transition function runs and never mutate a book. -/
inductive Event where
  | book (bids asks : List PriceLevel) (timestamp : String)
  | priceChange (changes : List Change) (timestamp : String)
deriving DecidableEq, Repr

/-- Failure of the transition function: the source raises `ValueError`
("Non-book update events require a previous state") — the spec's
`NoPriorStateError`. -/
inductive UpdateError where
  | noPriorState
deriving DecidableEq, Repr

instance {ε α : Type} [DecidableEq ε] [DecidableEq α] : DecidableEq (Except ε α) := fun a b =>
  match a, b with
  | .ok x, .ok y =>
    if h : x = y then .isTrue (by rw [h]) else .isFalse (fun hc => h (Except.ok.inj hc))
  | .error x, .error y =>
    if h : x = y then .isTrue (by rw [h]) else .isFalse (fun hc => h (Except.error.inj hc))
  | .ok _, .error _ => .isFalse (fun hc => Except.noConfusion hc)
  | .error _, .ok _ => .isFalse (fun hc => Except.noConfusion hc)

/-- Ordering of levels by numeric price: the `key=lambda x: float(x["price"])`
of the source's `sorted` calls. -/
abbrev priceLe (a b : PriceLevel) : Prop := parseDec a.price ≤ parseDec b.price

/-- Strict version of `priceLe`, used to state the strict-ascent invariant. -/
abbrev priceLt (a b : PriceLevel) : Prop := parseDec a.price < parseDec b.price

/-- Stable insertion into a list sorted by numeric price: the new element goes
before the first element whose key is not smaller. -/
def insLevel (x : PriceLevel) : List PriceLevel → List PriceLevel
  | [] => [x]
  | y :: ys => if parseDec x.price ≤ parseDec y.price then x :: y :: ys else y :: insLevel x ys

/-- Stable sort by numeric price: the model of the source's
`sorted(levels, key=lambda x: float(x["price"]))` (Python's sort is stable, and
so is this insertion sort). -/
def sortLevels : List PriceLevel → List PriceLevel
  | [] => []
  | x :: xs => insLevel x (sortLevels xs)

/-- The first `for i, price_dict in enumerate(next_state[target])` loop of
`MarketBook._update` (identically `OrderBook._update_price`): scan the
same-side levels for the first one whose price string equals the change's
price; pop it when the change's size is the exact string `"0"`, otherwise
overwrite its size with the change's size.  Returns `none` when no level
matched (`updated` stays false). -/
def sameSideUpdate (levels : List PriceLevel) (price size : String) :
    Option (List PriceLevel) :=
  match levels with
  | [] => none
  | l :: ls =>
    if l.price = price then
      some (if size = "0" then ls else PriceLevel.mk l.price (parseDec size) :: ls)
    else
      (sameSideUpdate ls price size).map (fun r => l :: r)

/-- The second `for i, price_dict in enumerate(next_state[counter_target])`
loop: scan the opposite-side levels for the first price-string match and apply
the complementary inference on `size_diff = round(old - new, 3)`.  Returns the
new opposite side together with the spill level to append to the same side
(`str(-size_diff)`) when `size_diff < 0`; `none` when no level matched. -/
def counterSideUpdate (levels : List PriceLevel) (price : String) (sz : Rat) :
    Option (List PriceLevel × Option PriceLevel) :=
  match levels with
  | [] => none
  | l :: ls =>
    if l.price = price then
      let d := round3 (ratSub l.size sz)
      if d = 0 then some (ls, none)
      else if 0 < d then some (PriceLevel.mk l.price d :: ls, none)
      else some (l :: ls, some (PriceLevel.mk price (-d)))
    else
      (counterSideUpdate ls price sz).map (fun r => (l :: r.1, r.2))

/-- The body of the `for change in update["changes"]` loop for one change,
acting on the (same-side, opposite-side) pair: same-side scan, opposite-side
scan, then the fallback append when neither matched. -/
def applyChangeSides (tgt ctr : List PriceLevel) (c : Change) :
    List PriceLevel × List PriceLevel :=
  let step1 :=
    match sameSideUpdate tgt c.price c.size with
    | some t => (t, true)
    | none => (tgt, false)
  match counterSideUpdate ctr c.price (parseDec c.size) with
  | some (ctr1, some sp) => (step1.1 ++ [sp], ctr1)
  | some (ctr1, none) => (step1.1, ctr1)
  | none =>
    if step1.2 then (step1.1, ctr)
    else (step1.1 ++ [PriceLevel.mk c.price (parseDec c.size)], ctr)

/-- One change applied to the (bids, asks) pair: `target` is `bids` exactly
when `side == "BUY"`, otherwise `asks`. -/
def applyChange (sides : List PriceLevel × List PriceLevel) (c : Change) :
    List PriceLevel × List PriceLevel :=
  if c.side = "BUY" then
    applyChangeSides sides.1 sides.2 c
  else
    let r := applyChangeSides sides.2 sides.1 c
    (r.2, r.1)

/-- The transition function: `MarketBook._update` followed by the
`latest_state["timestamp"] = timestamp` assignment its caller
`_generate_states` performs on every produced state.  A `book` event ignores
the prior state and sorts its level lists (`_construct_book`); a
`price_change` event with an absent prior state raises (`ValueError` in the
source); otherwise the changes fold over a copy of the prior state's sides
(`copy.deepcopy`) and both sides are re-sorted. -/
def update (previousState : Option BookState) (e : Event) :
    Except UpdateError BookState :=
  match e with
  | .book bids asks ts => .ok ⟨sortLevels bids, sortLevels asks, ts⟩
  | .priceChange changes ts =>
    match previousState with
    | none => .error .noPriorState
    | some st =>
      let s := changes.foldl applyChange (st.bids, st.asks)
      .ok ⟨sortLevels s.1, sortLevels s.2, ts⟩

/-- The fold of `MarketBook._generate_states` from a given prior state: one
retained state per event, each later event applied to the previous result; a
raised error aborts the whole construction. -/
def genFrom (prev : Option BookState) :
    List Event → Except UpdateError (List (Option BookState))
  | [] => .ok []
  | e :: es =>
    match update prev e with
    | .error err => .error err
    | .ok s =>
      match genFrom (some s) es with
      | .error err => .error err
      | .ok rest => .ok (some s :: rest)

/-- `MarketBook._generate_states`: the retained series starts with the
`NO_PREVIOUS_STATE` marker at index 0 and appends the state produced by every
event in arrival order. -/
def generateStates (events : List Event) :
    Except UpdateError (List (Option BookState)) :=
  match genFrom none events with
  | .error err => .error err
  | .ok states => .ok (none :: states)

/-- One persisted log entry as seen by the timestamp filter of
`load_data_cache`: only its (parsed, totally ordered) timestamp is consulted;
`tag` stands for the rest of the entry. -/
structure LogEntry where
  timestamp : Nat
  tag : String
deriving DecidableEq, Repr

/-- The timestamp filter of `utils.load_data_cache` (the function
`OrderBook.reset` replays through): with a timestamp `t`, scan for the first
entry whose time is strictly greater than `t` and keep the suffix from that
index; when no entry qualifies the source reads the unbound `threshold_index`
and raises `NameError`, modelled as `none`. -/
def loadDataCache (entries : List LogEntry) (timestamp : Option Nat) :
    Option (List LogEntry) :=
  match timestamp with
  | none => some entries
  | some t =>
    match entries.findIdx? (fun e => decide (t < e.timestamp)) with
    | some i => some (entries.drop i)
    | none => none

/-! ### Bridge lemmas: the kernel-evaluable arithmetic above is the ordinary
rational arithmetic of the source's `float` expressions. -/

theorem ratSub_eq_sub (a b : Rat) : ratSub a b = a - b := (Rat.sub_def' a b).symm

theorem round3_eq (x : Rat) :
    round3 x = ((roundHalfEven (x * 1000) : Int) : Rat) / 1000 := by
  have h1 : mkRat (x.num * 1000) x.den = x * 1000 := by
    rw [Rat.mkRat_eq_div]
    push_cast
    rw [mul_div_right_comm, Rat.num_div_den]
  rw [round3, h1, Rat.mkRat_eq_div]
  norm_num

/-! ### Sorting toolkit -/

instance : IsTrans PriceLevel priceLe := ⟨fun _ _ _ hab hbc => le_trans hab hbc⟩

theorem mem_insLevel {x z : PriceLevel} :
    ∀ {l : List PriceLevel}, z ∈ insLevel x l → z = x ∨ z ∈ l
  | [], h => by simpa [insLevel] using h
  | y :: ys, h => by
    rw [insLevel] at h
    split_ifs at h with hxy
    · rcases List.mem_cons.mp h with rfl | h
      · exact Or.inl rfl
      · exact Or.inr h
    · rcases List.mem_cons.mp h with hzy | h
      · exact Or.inr (hzy ▸ List.mem_cons_self y ys)
      · rcases mem_insLevel h with hzx | h
        · exact Or.inl hzx
        · exact Or.inr (List.mem_cons_of_mem y h)

theorem pairwise_insLevel {x : PriceLevel} :
    ∀ {l : List PriceLevel}, List.Pairwise priceLe l →
      List.Pairwise priceLe (insLevel x l)
  | [], _ => by simp [insLevel]
  | y :: ys, h => by
    rw [insLevel]
    split_ifs with hxy
    · refine List.pairwise_cons.mpr ⟨?_, h⟩
      intro z hz
      rcases List.mem_cons.mp hz with rfl | hz
      · exact hxy
      · exact le_trans hxy (List.rel_of_pairwise_cons h hz)
    · refine List.pairwise_cons.mpr ⟨?_, pairwise_insLevel (List.pairwise_cons.mp h).2⟩
      intro z hz
      rcases mem_insLevel hz with rfl | hz
      · exact le_of_not_le hxy
      · exact List.rel_of_pairwise_cons h hz

theorem pairwise_sortLevels : ∀ (l : List PriceLevel), List.Pairwise priceLe (sortLevels l)
  | [] => by simp [sortLevels]
  | x :: xs => by
    rw [sortLevels]
    exact pairwise_insLevel (pairwise_sortLevels xs)

theorem chain'_sortLevels (l : List PriceLevel) : List.Chain' priceLe (sortLevels l) :=
  List.chain'_iff_pairwise.mpr (pairwise_sortLevels l)

theorem sortLevels_eq_of_pairwise : ∀ {l : List PriceLevel},
    List.Pairwise priceLe l → sortLevels l = l
  | [], _ => rfl
  | x :: xs, h => by
    rw [sortLevels, sortLevels_eq_of_pairwise (List.pairwise_cons.mp h).2]
    cases xs with
    | nil => rfl
    | cons y ys =>
      rw [insLevel, if_pos ((List.pairwise_cons.mp h).1 y (List.mem_cons_self y ys))]

theorem insLevel_length (x : PriceLevel) :
    ∀ (l : List PriceLevel), (insLevel x l).length = l.length + 1
  | [] => rfl
  | y :: ys => by
    rw [insLevel]
    split_ifs with hxy
    · rfl
    · rw [List.length_cons, insLevel_length x ys, List.length_cons]

theorem sortLevels_length : ∀ (l : List PriceLevel), (sortLevels l).length = l.length
  | [] => rfl
  | x :: xs => by
    rw [sortLevels, insLevel_length, sortLevels_length xs, List.length_cons]

/-! ### Scan lemmas: where the two price-string scans of the per-change loop
match, as a function of the list layout. -/

theorem sameSideUpdate_eq_none {p s : String} :
    ∀ {levels : List PriceLevel}, (∀ x ∈ levels, x.price ≠ p) →
      sameSideUpdate levels p s = none
  | [], _ => rfl
  | l :: ls, h => by
    rw [sameSideUpdate, if_neg (h l (List.mem_cons_self l ls)),
      sameSideUpdate_eq_none (fun x hx => h x (List.mem_cons_of_mem l hx))]
    rfl

theorem counterSideUpdate_eq_none {p : String} {sz : Rat} :
    ∀ {levels : List PriceLevel}, (∀ x ∈ levels, x.price ≠ p) →
      counterSideUpdate levels p sz = none
  | [], _ => rfl
  | l :: ls, h => by
    rw [counterSideUpdate, if_neg (h l (List.mem_cons_self l ls)),
      counterSideUpdate_eq_none (fun x hx => h x (List.mem_cons_of_mem l hx))]
    rfl

theorem sameSideUpdate_append (p s : String) (l : PriceLevel) (post : List PriceLevel) :
    ∀ (pre : List PriceLevel), (∀ x ∈ pre, x.price ≠ p) → l.price = p →
      sameSideUpdate (pre ++ l :: post) p s =
        some (if s = "0" then pre ++ post
              else pre ++ PriceLevel.mk l.price (parseDec s) :: post)
  | [], _, hl => by
    rw [List.nil_append, sameSideUpdate, if_pos hl]
    split_ifs <;> rfl
  | y :: ys, hpre, hl => by
    rw [List.cons_append, sameSideUpdate,
      if_neg (hpre y (List.mem_cons_self y ys)),
      sameSideUpdate_append p s l post ys (fun x hx => hpre x (List.mem_cons_of_mem y hx)) hl]
    split_ifs <;> rfl

theorem counterSideUpdate_append (p : String) (sz : Rat) (l : PriceLevel)
    (post : List PriceLevel) :
    ∀ (pre : List PriceLevel), (∀ x ∈ pre, x.price ≠ p) → l.price = p →
      counterSideUpdate (pre ++ l :: post) p sz =
        some (if round3 (ratSub l.size sz) = 0 then (pre ++ post, none)
              else if 0 < round3 (ratSub l.size sz) then
                (pre ++ PriceLevel.mk l.price (round3 (ratSub l.size sz)) :: post, none)
              else (pre ++ l :: post, some (PriceLevel.mk p (-(round3 (ratSub l.size sz))))))
  | [], _, hl => by
    simp only [List.nil_append, counterSideUpdate, if_pos hl]
    split_ifs <;> rfl
  | y :: ys, hpre, hl => by
    rw [List.cons_append, counterSideUpdate,
      if_neg (hpre y (List.mem_cons_self y ys)),
      counterSideUpdate_append p sz l post ys (fun x hx => hpre x (List.mem_cons_of_mem y hx)) hl]
    split_ifs <;> rfl

theorem pairwise_priceLe_middle {pre post : List PriceLevel} {l : PriceLevel}
    (h : List.Pairwise priceLe (pre ++ l :: post)) :
    List.Pairwise priceLe (pre ++ post) :=
  h.sublist ((List.sublist_cons_self l post).append_left pre)

theorem pairwise_priceLe_replace {pre post : List PriceLevel} {l : PriceLevel} {d : Rat}
    (h : List.Pairwise priceLe (pre ++ l :: post)) :
    List.Pairwise priceLe (pre ++ PriceLevel.mk l.price d :: post) := by
  have h1 : List.Pairwise (fun a b : Rat => a ≤ b)
      ((pre ++ l :: post).map fun x => parseDec x.price) :=
    (List.pairwise_map (f := fun x : PriceLevel => parseDec x.price)).mpr h
  have h2 : (pre ++ l :: post).map (fun x => parseDec x.price)
      = (pre ++ PriceLevel.mk l.price d :: post).map (fun x => parseDec x.price) := by
    simp
  rw [h2] at h1
  exact (List.pairwise_map (f := fun x : PriceLevel => parseDec x.price)).mp h1

/-! ### Characterization of one change -/

theorem update_priceChange_single (st : BookState) (c : Change) (ts : String) :
    update (some st) (.priceChange [c] ts) =
      .ok ⟨sortLevels (applyChange (st.bids, st.asks) c).1,
        sortLevels (applyChange (st.bids, st.asks) c).2, ts⟩ := rfl

theorem applyChange_buy (sides : List PriceLevel × List PriceLevel) (c : Change)
    (h : c.side = "BUY") :
    applyChange sides c = applyChangeSides sides.1 sides.2 c := by
  rw [applyChange, if_pos h]

theorem applyChange_sell (sides : List PriceLevel × List PriceLevel) (c : Change)
    (h : c.side ≠ "BUY") :
    applyChange sides c =
      ((applyChangeSides sides.2 sides.1 c).2, (applyChangeSides sides.2 sides.1 c).1) := by
  rw [applyChange, if_neg h]

theorem applyChange_buy_sides (tgt ctr : List PriceLevel) (c : Change)
    (h : c.side = "BUY") :
    applyChange (tgt, ctr) c = applyChangeSides tgt ctr c :=
  applyChange_buy (tgt, ctr) c h

theorem applyChange_sell_sides (b a : List PriceLevel) (c : Change)
    (h : c.side ≠ "BUY") :
    applyChange (b, a) c
      = ((applyChangeSides a b c).2, (applyChangeSides a b c).1) :=
  applyChange_sell (b, a) c h

theorem applyChangeSides_fallback (tgt ctr : List PriceLevel) (c : Change)
    (htgt : ∀ x ∈ tgt, x.price ≠ c.price) (hctr : ∀ x ∈ ctr, x.price ≠ c.price) :
    applyChangeSides tgt ctr c = (tgt ++ [PriceLevel.mk c.price (parseDec c.size)], ctr) := by
  simp [applyChangeSides, sameSideUpdate_eq_none htgt, counterSideUpdate_eq_none hctr]

theorem applyChangeSides_zero (pre post ctr : List PriceLevel) (l : PriceLevel) (c : Change)
    (hsize : c.size = "0") (hpre : ∀ x ∈ pre, x.price ≠ c.price) (hl : l.price = c.price)
    (hctr : ∀ x ∈ ctr, x.price ≠ c.price) :
    applyChangeSides (pre ++ l :: post) ctr c = (pre ++ post, ctr) := by
  have h1 := sameSideUpdate_append c.price c.size l post pre hpre hl
  rw [if_pos hsize] at h1
  simp [applyChangeSides, h1, counterSideUpdate_eq_none hctr]

theorem applyChangeSides_overwrite (pre post ctr : List PriceLevel) (l : PriceLevel)
    (c : Change) (hsize : c.size ≠ "0") (hpre : ∀ x ∈ pre, x.price ≠ c.price)
    (hl : l.price = c.price) (hctr : ∀ x ∈ ctr, x.price ≠ c.price) :
    applyChangeSides (pre ++ l :: post) ctr c
      = (pre ++ PriceLevel.mk l.price (parseDec c.size) :: post, ctr) := by
  have h1 := sameSideUpdate_append c.price c.size l post pre hpre hl
  rw [if_neg hsize] at h1
  simp [applyChangeSides, h1, counterSideUpdate_eq_none hctr]

/-! ### Claim theorems -/

/-- Claim C6 (confirmed): applying a Delta (`price_change`) event when the
prior state is the absent marker fails with the no-prior-state error
(`ValueError` in the source) and produces no state; a Snapshot must precede
any Delta for an instrument. -/
theorem c6_delta_without_prior_state_fails (cs : List Change) (ts : String) :
    update none (.priceChange cs ts) = .error .noPriorState := rfl

/-- Claim C7 (confirmed): a Snapshot (`book`) event ignores the prior state
entirely and returns the event's level lists sorted ascending by price with
the event's timestamp; and the Snapshot path is the only event kind that
produces a present state from the absent state. -/
theorem c7_snapshot_replaces_and_initializes :
    (∀ (prev : Option BookState) (b a : List PriceLevel) (ts : String),
        update prev (.book b a ts) = .ok ⟨sortLevels b, sortLevels a, ts⟩
        ∧ List.Pairwise priceLe (sortLevels b)
        ∧ List.Pairwise priceLe (sortLevels a))
    ∧ (∀ (e : Event) (st : BookState), update none e = .ok st →
        ∃ b a ts, e = .book b a ts) := by
  constructor
  · intro prev b a ts
    exact ⟨rfl, pairwise_sortLevels b, pairwise_sortLevels a⟩
  · intro e st h
    cases e with
    | book b a ts => exact ⟨b, a, ts, rfl⟩
    | priceChange cs ts => exact Except.noConfusion h

/-- Witness for C7 at a concrete snapshot and a concrete absent-state
transition. -/
theorem c7_snapshot_replaces_and_initializes_witness :
    (update (some ⟨[PriceLevel.mk "0.7" 2], [], "t9"⟩) (.book [] [] "t3")
      = .ok ⟨sortLevels [], sortLevels [], "t3"⟩)
    ∧ ∃ b a ts, (Event.book [PriceLevel.mk "0.5" 1] [] "t4") = Event.book b a ts :=
  ⟨(c7_snapshot_replaces_and_initializes.1 (some ⟨[PriceLevel.mk "0.7" 2], [], "t9"⟩)
      [] [] "t3").1,
   c7_snapshot_replaces_and_initializes.2 (.book [PriceLevel.mk "0.5" 1] [] "t4")
      ⟨sortLevels [PriceLevel.mk "0.5" 1], sortLevels [], "t4"⟩ rfl⟩

/-- Claim C2, amended (corrected): after every `apply` call both sides are
sorted nondecreasing by numeric price; the strict version of the claim fails
because two levels whose distinct price strings denote the same decimal can
coexist on one side (see the counterexample). -/
theorem c2_sides_sorted_nondecreasing (prev : Option BookState) (e : Event)
    (st : BookState) (h : update prev e = .ok st) :
    List.Pairwise priceLe st.bids ∧ List.Pairwise priceLe st.asks := by
  cases e with
  | book b a ts =>
    simp only [update] at h
    injection h with h'
    subst h'
    exact ⟨pairwise_sortLevels b, pairwise_sortLevels a⟩
  | priceChange cs ts =>
    cases prev with
    | none => exact Except.noConfusion h
    | some st0 =>
      simp only [update] at h
      injection h with h'
      subst h'
      exact ⟨pairwise_sortLevels _, pairwise_sortLevels _⟩

/-- Witness for the amended C2 at a concrete snapshot. -/
theorem c2_sides_sorted_nondecreasing_witness :
    List.Pairwise priceLe (BookState.mk [PriceLevel.mk "0.5" 1] [] "t3").bids
    ∧ List.Pairwise priceLe (BookState.mk [PriceLevel.mk "0.5" 1] [] "t3").asks :=
  c2_sides_sorted_nondecreasing none (.book [PriceLevel.mk "0.5" 1] [] "t3")
    ⟨[PriceLevel.mk "0.5" 1], [], "t3"⟩ (by decide)

/-- Counterexample to C2 as stated: from a prior state holding a bid at the
price string `0.50` (exactly what a snapshot produces), a delta at the
numerically equal price string `0.5` leaves the bid side with two levels at
the same numeric price, so the bid side is not strictly ascending. -/
theorem c2_strict_ascent_counterexample :
    update (some ⟨[PriceLevel.mk "0.50" 10], [], "t0"⟩)
        (.priceChange [⟨"0.5", "BUY", "5"⟩] "t1")
      = .ok ⟨[PriceLevel.mk "0.50" 10, PriceLevel.mk "0.5" 5], [], "t1"⟩
    ∧ ¬ List.Pairwise priceLt [PriceLevel.mk "0.50" 10, PriceLevel.mk "0.5" 5]
    ∧ parseDec "0.50" = parseDec "0.5" := by
  refine ⟨by decide, ?_, by decide⟩
  intro hpw
  have hrel := List.rel_of_pairwise_cons hpw (List.mem_cons_self _ _)
  exact absurd hrel (by decide)

/-- Claim C10 (confirmed): for every Delta change — Buy-side or Sell-side —
both matching scans compare the change's price to a stored level's price as
raw strings, so a change whose price string matches no stored price string on
either side falls through to the fallback and appends a new level on the
requested side (`bids` exactly when the side is `BUY`, otherwise `asks`) —
even when an existing level denotes the same decimal price, producing a
numeric duplicate (see the witness, which exercises both sides). -/
theorem c10_price_match_is_string_equality (st : BookState) (c : Change) (ts : String)
    (hb : ∀ l ∈ st.bids, l.price ≠ c.price)
    (ha : ∀ l ∈ st.asks, l.price ≠ c.price) :
    update (some st) (.priceChange [c] ts)
      = .ok (if c.side = "BUY" then
            ⟨sortLevels (st.bids ++ [PriceLevel.mk c.price (parseDec c.size)]),
              sortLevels st.asks, ts⟩
          else
            ⟨sortLevels st.bids,
              sortLevels (st.asks ++ [PriceLevel.mk c.price (parseDec c.size)]), ts⟩) := by
  by_cases hside : c.side = "BUY"
  · rw [if_pos hside, update_priceChange_single, applyChange_buy _ _ hside,
      applyChangeSides_fallback _ _ _ hb ha]
  · rw [if_neg hside, update_priceChange_single, applyChange_sell _ _ hside,
      applyChangeSides_fallback _ _ _ ha hb]

/-- Witness for C10: prices `0.50` and `0.5` denote the same decimal but differ
as strings, so the delta matches nothing and a numerically duplicate level is
appended — on the bid side for a Buy change and on the ask side for a Sell
change. -/
theorem c10_price_match_is_string_equality_witness :
    (∀ l ∈ [PriceLevel.mk "0.50" 10], l.price ≠ "0.5")
    ∧ update (some ⟨[PriceLevel.mk "0.50" 10], [], "t0"⟩)
        (.priceChange [⟨"0.5", "BUY", "5"⟩] "t1")
      = .ok ⟨[PriceLevel.mk "0.50" 10, PriceLevel.mk "0.5" 5], [], "t1"⟩
    ∧ update (some ⟨[], [PriceLevel.mk "0.50" 10], "t0"⟩)
        (.priceChange [⟨"0.5", "SELL", "5"⟩] "t1")
      = .ok ⟨[], [PriceLevel.mk "0.50" 10, PriceLevel.mk "0.5" 5], "t1"⟩
    ∧ parseDec "0.50" = parseDec "0.5" :=
  ⟨by decide,
   c10_price_match_is_string_equality ⟨[PriceLevel.mk "0.50" 10], [], "t0"⟩
     ⟨"0.5", "BUY", "5"⟩ "t1" (by decide) (by decide),
   c10_price_match_is_string_equality ⟨[], [PriceLevel.mk "0.50" 10], "t0"⟩
     ⟨"0.5", "SELL", "5"⟩ "t1" (by decide) (by decide),
   by decide⟩

/-- Claim C5 (confirmed): with an ask level `{0.40, 100}` and no bid at that
price, a Buy-side delta `(0.40, 30)` shrinks the ask level to size 70
(`100 - 30`) and creates no new bid level (the fallback does not fire because
the opposite side matched). -/
theorem c5_complementary_inference (bs pre post : List PriceLevel) (t1 t2 : String)
    (hb : ∀ x ∈ bs, x.price ≠ "0.40") (hpre : ∀ x ∈ pre, x.price ≠ "0.40")
    (hsb : List.Pairwise priceLe bs)
    (hsa : List.Pairwise priceLe (pre ++ PriceLevel.mk "0.40" 100 :: post)) :
    update (some ⟨bs, pre ++ PriceLevel.mk "0.40" 100 :: post, t1⟩)
        (.priceChange [⟨"0.40", "BUY", "30"⟩] t2)
      = .ok ⟨bs, pre ++ PriceLevel.mk "0.40" 70 :: post, t2⟩ := by
  have h2 := counterSideUpdate_append "0.40" (parseDec "30")
    (PriceLevel.mk "0.40" 100) post pre hpre rfl
  have hd : round3 (ratSub (PriceLevel.mk "0.40" (100 : Rat)).size (parseDec "30")) = 70 := by
    decide
  rw [hd, if_neg (by decide), if_pos (by decide)] at h2
  have hacs : applyChangeSides bs (pre ++ PriceLevel.mk "0.40" 100 :: post)
      (Change.mk "0.40" "BUY" "30") = (bs, pre ++ PriceLevel.mk "0.40" 70 :: post) := by
    simp [applyChangeSides, sameSideUpdate_eq_none hb, h2]
  have hrep : List.Pairwise priceLe (pre ++ PriceLevel.mk "0.40" 70 :: post) :=
    pairwise_priceLe_replace hsa
  have e : update (some ⟨bs, pre ++ PriceLevel.mk "0.40" 100 :: post, t1⟩)
      (.priceChange [⟨"0.40", "BUY", "30"⟩] t2)
      = .ok ⟨sortLevels (applyChange (bs, pre ++ PriceLevel.mk "0.40" 100 :: post)
          (Change.mk "0.40" "BUY" "30")).1,
        sortLevels (applyChange (bs, pre ++ PriceLevel.mk "0.40" 100 :: post)
          (Change.mk "0.40" "BUY" "30")).2, t2⟩ :=
    update_priceChange_single _ _ _
  rw [applyChange_buy_sides _ _ _ rfl, hacs] at e
  have e2 : update (some ⟨bs, pre ++ PriceLevel.mk "0.40" 100 :: post, t1⟩)
      (.priceChange [⟨"0.40", "BUY", "30"⟩] t2)
      = .ok ⟨sortLevels bs, sortLevels (pre ++ PriceLevel.mk "0.40" 70 :: post), t2⟩ := e
  rw [sortLevels_eq_of_pairwise hsb, sortLevels_eq_of_pairwise hrep] at e2
  exact e2

/-- Witness for C5 at the concrete book of the claim. -/
theorem c5_complementary_inference_witness :
    update (some ⟨[], [PriceLevel.mk "0.40" 100], "t0"⟩)
        (.priceChange [⟨"0.40", "BUY", "30"⟩] "t1")
      = .ok ⟨[], [PriceLevel.mk "0.40" 70], "t1"⟩ :=
  c5_complementary_inference [] [] [] "t0" "t1" (by simp) (by simp) (by simp) (by simp)

/-- Claim C1, amended (corrected): in the spill case (prior ask `{0.40, 20}`,
Buy-side delta `(0.40, 30)`, no bid at 0.40) a bid level `{0.40, 10}` is
appended, but the ask level at 0.40 is NOT removed: the `size_diff < 0` branch
of the source removes nothing on the opposite side. -/
theorem c1_spill_keeps_opposite_level (bs pre post : List PriceLevel) (t1 t2 : String)
    (hb : ∀ x ∈ bs, x.price ≠ "0.40") (hpre : ∀ x ∈ pre, x.price ≠ "0.40")
    (hsa : List.Pairwise priceLe (pre ++ PriceLevel.mk "0.40" 20 :: post)) :
    update (some ⟨bs, pre ++ PriceLevel.mk "0.40" 20 :: post, t1⟩)
        (.priceChange [⟨"0.40", "BUY", "30"⟩] t2)
      = .ok ⟨sortLevels (bs ++ [PriceLevel.mk "0.40" 10]),
          pre ++ PriceLevel.mk "0.40" 20 :: post, t2⟩ := by
  have h2 := counterSideUpdate_append "0.40" (parseDec "30")
    (PriceLevel.mk "0.40" 20) post pre hpre rfl
  have hd : round3 (ratSub (PriceLevel.mk "0.40" (20 : Rat)).size (parseDec "30")) = -10 := by
    decide
  rw [hd, if_neg (by decide), if_neg (by decide),
    show (-(-10 : Rat)) = 10 from by decide] at h2
  have hacs : applyChangeSides bs (pre ++ PriceLevel.mk "0.40" 20 :: post)
      (Change.mk "0.40" "BUY" "30")
      = (bs ++ [PriceLevel.mk "0.40" 10], pre ++ PriceLevel.mk "0.40" 20 :: post) := by
    simp [applyChangeSides, sameSideUpdate_eq_none hb, h2]
  have e : update (some ⟨bs, pre ++ PriceLevel.mk "0.40" 20 :: post, t1⟩)
      (.priceChange [⟨"0.40", "BUY", "30"⟩] t2)
      = .ok ⟨sortLevels (applyChange (bs, pre ++ PriceLevel.mk "0.40" 20 :: post)
          (Change.mk "0.40" "BUY" "30")).1,
        sortLevels (applyChange (bs, pre ++ PriceLevel.mk "0.40" 20 :: post)
          (Change.mk "0.40" "BUY" "30")).2, t2⟩ :=
    update_priceChange_single _ _ _
  rw [applyChange_buy_sides _ _ _ rfl, hacs] at e
  have e2 : update (some ⟨bs, pre ++ PriceLevel.mk "0.40" 20 :: post, t1⟩)
      (.priceChange [⟨"0.40", "BUY", "30"⟩] t2)
      = .ok ⟨sortLevels (bs ++ [PriceLevel.mk "0.40" 10]),
          sortLevels (pre ++ PriceLevel.mk "0.40" 20 :: post), t2⟩ := e
  rw [sortLevels_eq_of_pairwise hsa] at e2
  exact e2

/-- Witness for the amended C1 at the concrete book of the claim. -/
theorem c1_spill_keeps_opposite_level_witness :
    update (some ⟨[], [PriceLevel.mk "0.40" 20], "t0"⟩)
        (.priceChange [⟨"0.40", "BUY", "30"⟩] "t1")
      = .ok ⟨[PriceLevel.mk "0.40" 10], [PriceLevel.mk "0.40" 20], "t1"⟩ :=
  c1_spill_keeps_opposite_level [] [] [] "t0" "t1" (by simp) (by simp) (by simp)

/-- Counterexample to C1 as stated: at the claim's own input the result still
holds the ask level `{0.40, 20}`, so the ask level is not "removed entirely"
(the second conjunct refutes the state the claim predicts). -/
theorem c1_spill_removal_counterexample :
    update (some ⟨[], [PriceLevel.mk "0.40" 20], "t0"⟩)
        (.priceChange [⟨"0.40", "BUY", "30"⟩] "t1")
      = .ok ⟨[PriceLevel.mk "0.40" 10], [PriceLevel.mk "0.40" 20], "t1"⟩
    ∧ update (some ⟨[], [PriceLevel.mk "0.40" 20], "t0"⟩)
        (.priceChange [⟨"0.40", "BUY", "30"⟩] "t1")
      ≠ .ok ⟨[PriceLevel.mk "0.40" 10], [], "t1"⟩ :=
  ⟨by decide, by decide⟩

/-- Claim C3, amended (corrected): a Delta with the size string `"0"` at a
price `p` held on the named side removes that level (first conjunct of each
triple); but re-applying the same Delta is NOT a no-op when no level at `p`
remains on either side — the fallback appends a level `{p, 0}` back onto the
named side, so the second application differs from its input state.  Stated
for a Buy-side change (first triple) and a Sell-side change (second). -/
theorem c3_zero_removal_not_idempotent (p t1 t2 : String)
    (pre post opp : List PriceLevel) (l : PriceLevel)
    (hpre : ∀ x ∈ pre, x.price ≠ p) (hpost : ∀ x ∈ post, x.price ≠ p)
    (hl : l.price = p) (hopp : ∀ x ∈ opp, x.price ≠ p)
    (hs1 : List.Pairwise priceLe (pre ++ l :: post))
    (hs2 : List.Pairwise priceLe opp) :
    (update (some ⟨pre ++ l :: post, opp, t1⟩) (.priceChange [⟨p, "BUY", "0"⟩] t2)
        = .ok ⟨pre ++ post, opp, t2⟩
      ∧ update (some ⟨pre ++ post, opp, t2⟩) (.priceChange [⟨p, "BUY", "0"⟩] t2)
        = .ok ⟨sortLevels ((pre ++ post) ++ [PriceLevel.mk p 0]), opp, t2⟩
      ∧ (⟨sortLevels ((pre ++ post) ++ [PriceLevel.mk p 0]), opp, t2⟩ : BookState)
        ≠ ⟨pre ++ post, opp, t2⟩)
    ∧ (update (some ⟨opp, pre ++ l :: post, t1⟩) (.priceChange [⟨p, "SELL", "0"⟩] t2)
        = .ok ⟨opp, pre ++ post, t2⟩
      ∧ update (some ⟨opp, pre ++ post, t2⟩) (.priceChange [⟨p, "SELL", "0"⟩] t2)
        = .ok ⟨opp, sortLevels ((pre ++ post) ++ [PriceLevel.mk p 0]), t2⟩
      ∧ (⟨opp, sortLevels ((pre ++ post) ++ [PriceLevel.mk p 0]), t2⟩ : BookState)
        ≠ ⟨opp, pre ++ post, t2⟩) := by
  have hz : parseDec "0" = 0 := by decide
  have hpp : List.Pairwise priceLe (pre ++ post) := pairwise_priceLe_middle hs1
  have hall : ∀ x ∈ pre ++ post, x.price ≠ p :=
    fun x hx => (List.mem_append.mp hx).elim (hpre x) (hpost x)
  have hacs1 : applyChangeSides (pre ++ l :: post) opp (Change.mk p "BUY" "0")
      = (pre ++ post, opp) :=
    applyChangeSides_zero pre post opp l _ rfl hpre hl hopp
  have hacs1s : applyChangeSides (pre ++ l :: post) opp (Change.mk p "SELL" "0")
      = (pre ++ post, opp) :=
    applyChangeSides_zero pre post opp l _ rfl hpre hl hopp
  have hacs2 : applyChangeSides (pre ++ post) opp (Change.mk p "BUY" "0")
      = ((pre ++ post) ++ [PriceLevel.mk p 0], opp) := by
    simpa [hz] using applyChangeSides_fallback (pre ++ post) opp (Change.mk p "BUY" "0") hall hopp
  have hacs2s : applyChangeSides (pre ++ post) opp (Change.mk p "SELL" "0")
      = ((pre ++ post) ++ [PriceLevel.mk p 0], opp) := by
    simpa [hz] using applyChangeSides_fallback (pre ++ post) opp (Change.mk p "SELL" "0") hall hopp
  have hne : (⟨sortLevels ((pre ++ post) ++ [PriceLevel.mk p 0]), opp, t2⟩ : BookState)
      ≠ ⟨pre ++ post, opp, t2⟩ := by
    intro heq
    have hlen := congrArg (fun st : BookState => st.bids.length) heq
    simp only [sortLevels_length, List.length_append, List.length_cons,
      List.length_nil] at hlen
    omega
  have hnes : (⟨opp, sortLevels ((pre ++ post) ++ [PriceLevel.mk p 0]), t2⟩ : BookState)
      ≠ ⟨opp, pre ++ post, t2⟩ := by
    intro heq
    have hlen := congrArg (fun st : BookState => st.asks.length) heq
    simp only [sortLevels_length, List.length_append, List.length_cons,
      List.length_nil] at hlen
    omega
  refine ⟨⟨?_, ?_, hne⟩, ⟨?_, ?_, hnes⟩⟩
  · have e : update (some ⟨pre ++ l :: post, opp, t1⟩) (.priceChange [⟨p, "BUY", "0"⟩] t2)
        = .ok ⟨sortLevels (applyChange (pre ++ l :: post, opp) (Change.mk p "BUY" "0")).1,
          sortLevels (applyChange (pre ++ l :: post, opp) (Change.mk p "BUY" "0")).2, t2⟩ :=
      update_priceChange_single _ _ _
    rw [applyChange_buy_sides _ _ _ rfl, hacs1] at e
    have e2 : update (some ⟨pre ++ l :: post, opp, t1⟩) (.priceChange [⟨p, "BUY", "0"⟩] t2)
        = .ok ⟨sortLevels (pre ++ post), sortLevels opp, t2⟩ := e
    rw [sortLevels_eq_of_pairwise hpp, sortLevels_eq_of_pairwise hs2] at e2
    exact e2
  · have e : update (some ⟨pre ++ post, opp, t2⟩) (.priceChange [⟨p, "BUY", "0"⟩] t2)
        = .ok ⟨sortLevels (applyChange (pre ++ post, opp) (Change.mk p "BUY" "0")).1,
          sortLevels (applyChange (pre ++ post, opp) (Change.mk p "BUY" "0")).2, t2⟩ :=
      update_priceChange_single _ _ _
    rw [applyChange_buy_sides _ _ _ rfl, hacs2] at e
    have e2 : update (some ⟨pre ++ post, opp, t2⟩) (.priceChange [⟨p, "BUY", "0"⟩] t2)
        = .ok ⟨sortLevels ((pre ++ post) ++ [PriceLevel.mk p 0]), sortLevels opp, t2⟩ := e
    rw [sortLevels_eq_of_pairwise hs2] at e2
    exact e2
  · have e : update (some ⟨opp, pre ++ l :: post, t1⟩) (.priceChange [⟨p, "SELL", "0"⟩] t2)
        = .ok ⟨sortLevels (applyChange (opp, pre ++ l :: post) (Change.mk p "SELL" "0")).1,
          sortLevels (applyChange (opp, pre ++ l :: post) (Change.mk p "SELL" "0")).2, t2⟩ :=
      update_priceChange_single _ _ _
    rw [applyChange_sell_sides _ _ _ (show ("SELL" : String) ≠ "BUY" from by decide), hacs1s] at e
    have e2 : update (some ⟨opp, pre ++ l :: post, t1⟩) (.priceChange [⟨p, "SELL", "0"⟩] t2)
        = .ok ⟨sortLevels opp, sortLevels (pre ++ post), t2⟩ := e
    rw [sortLevels_eq_of_pairwise hpp, sortLevels_eq_of_pairwise hs2] at e2
    exact e2
  · have e : update (some ⟨opp, pre ++ post, t2⟩) (.priceChange [⟨p, "SELL", "0"⟩] t2)
        = .ok ⟨sortLevels (applyChange (opp, pre ++ post) (Change.mk p "SELL" "0")).1,
          sortLevels (applyChange (opp, pre ++ post) (Change.mk p "SELL" "0")).2, t2⟩ :=
      update_priceChange_single _ _ _
    rw [applyChange_sell_sides _ _ _ (show ("SELL" : String) ≠ "BUY" from by decide), hacs2s] at e
    have e2 : update (some ⟨opp, pre ++ post, t2⟩) (.priceChange [⟨p, "SELL", "0"⟩] t2)
        = .ok ⟨sortLevels opp, sortLevels ((pre ++ post) ++ [PriceLevel.mk p 0]), t2⟩ := e
    rw [sortLevels_eq_of_pairwise hs2] at e2
    exact e2

/-- Witness for the amended C3 at a concrete one-level book, Buy and Sell. -/
theorem c3_zero_removal_not_idempotent_witness :
    (update (some ⟨[PriceLevel.mk "0.5" 10], [], "t0"⟩)
        (.priceChange [⟨"0.5", "BUY", "0"⟩] "t1") = .ok ⟨[], [], "t1"⟩
      ∧ update (some ⟨[], [], "t1"⟩) (.priceChange [⟨"0.5", "BUY", "0"⟩] "t1")
        = .ok ⟨[PriceLevel.mk "0.5" 0], [], "t1"⟩
      ∧ (⟨[PriceLevel.mk "0.5" 0], [], "t1"⟩ : BookState) ≠ ⟨[], [], "t1"⟩)
    ∧ (update (some ⟨[], [PriceLevel.mk "0.5" 10], "t0"⟩)
        (.priceChange [⟨"0.5", "SELL", "0"⟩] "t1") = .ok ⟨[], [], "t1"⟩
      ∧ update (some ⟨[], [], "t1"⟩) (.priceChange [⟨"0.5", "SELL", "0"⟩] "t1")
        = .ok ⟨[], [PriceLevel.mk "0.5" 0], "t1"⟩
      ∧ (⟨[], [PriceLevel.mk "0.5" 0], "t1"⟩ : BookState) ≠ ⟨[], [], "t1"⟩) :=
  c3_zero_removal_not_idempotent "0.5" "t0" "t1" [] [] [] (PriceLevel.mk "0.5" 10)
    (by simp) (by simp) rfl (by simp) (by simp) (by simp)

/-- Counterexample to C3 as stated: after the zero-size Delta removes the only
bid at 0.5, re-applying the same Delta appends a size-0 level at 0.5 instead of
leaving the state unchanged. -/
theorem c3_idempotence_counterexample :
    update (some ⟨[PriceLevel.mk "0.5" 10], [], "t0"⟩)
        (.priceChange [⟨"0.5", "BUY", "0"⟩] "t1") = .ok ⟨[], [], "t1"⟩
    ∧ update (some ⟨[], [], "t1"⟩) (.priceChange [⟨"0.5", "BUY", "0"⟩] "t1")
      = .ok ⟨[PriceLevel.mk "0.5" 0], [], "t1"⟩
    ∧ update (some ⟨[], [], "t1"⟩) (.priceChange [⟨"0.5", "BUY", "0"⟩] "t1")
      ≠ .ok ⟨[], [], "t1"⟩ :=
  ⟨by decide, by decide, by decide⟩

/-- Claim C4, amended (corrected): the same-side removal triggers exactly when
the change's size field is the literal string `"0"`; any other spelling of
decimal zero (such as `"0.0"`) instead overwrites the matched level's size and
keeps the level.  Stated for a Buy-side change and a Sell-side change. -/
theorem c4_removal_requires_zero_string (p s t1 t2 : String)
    (pre post opp : List PriceLevel) (l : PriceLevel)
    (hpre : ∀ x ∈ pre, x.price ≠ p) (hl : l.price = p)
    (hopp : ∀ x ∈ opp, x.price ≠ p)
    (hs1 : List.Pairwise priceLe (pre ++ l :: post))
    (hs2 : List.Pairwise priceLe opp) :
    (update (some ⟨pre ++ l :: post, opp, t1⟩) (.priceChange [⟨p, "BUY", s⟩] t2)
      = .ok ⟨if s = "0" then pre ++ post
          else pre ++ PriceLevel.mk l.price (parseDec s) :: post, opp, t2⟩)
    ∧ (update (some ⟨opp, pre ++ l :: post, t1⟩) (.priceChange [⟨p, "SELL", s⟩] t2)
      = .ok ⟨opp, if s = "0" then pre ++ post
          else pre ++ PriceLevel.mk l.price (parseDec s) :: post, t2⟩) := by
  have hpp : List.Pairwise priceLe (pre ++ post) := pairwise_priceLe_middle hs1
  have hrep : List.Pairwise priceLe (pre ++ PriceLevel.mk l.price (parseDec s) :: post) :=
    pairwise_priceLe_replace hs1
  by_cases hzs : s = "0"
  · subst hzs
    simp only [if_pos rfl]
    have hacs : applyChangeSides (pre ++ l :: post) opp (Change.mk p "BUY" "0")
        = (pre ++ post, opp) :=
      applyChangeSides_zero pre post opp l _ rfl hpre hl hopp
    have hacss : applyChangeSides (pre ++ l :: post) opp (Change.mk p "SELL" "0")
        = (pre ++ post, opp) :=
      applyChangeSides_zero pre post opp l _ rfl hpre hl hopp
    constructor
    · have e : update (some ⟨pre ++ l :: post, opp, t1⟩) (.priceChange [⟨p, "BUY", "0"⟩] t2)
          = .ok ⟨sortLevels (applyChange (pre ++ l :: post, opp) (Change.mk p "BUY" "0")).1,
            sortLevels (applyChange (pre ++ l :: post, opp) (Change.mk p "BUY" "0")).2, t2⟩ :=
        update_priceChange_single _ _ _
      rw [applyChange_buy_sides _ _ _ rfl, hacs] at e
      have e2 : update (some ⟨pre ++ l :: post, opp, t1⟩) (.priceChange [⟨p, "BUY", "0"⟩] t2)
          = .ok ⟨sortLevels (pre ++ post), sortLevels opp, t2⟩ := e
      rw [sortLevels_eq_of_pairwise hpp, sortLevels_eq_of_pairwise hs2] at e2
      exact e2
    · have e : update (some ⟨opp, pre ++ l :: post, t1⟩) (.priceChange [⟨p, "SELL", "0"⟩] t2)
          = .ok ⟨sortLevels (applyChange (opp, pre ++ l :: post) (Change.mk p "SELL" "0")).1,
            sortLevels (applyChange (opp, pre ++ l :: post) (Change.mk p "SELL" "0")).2, t2⟩ :=
        update_priceChange_single _ _ _
      rw [applyChange_sell_sides _ _ _ (show ("SELL" : String) ≠ "BUY" from by decide), hacss] at e
      have e2 : update (some ⟨opp, pre ++ l :: post, t1⟩) (.priceChange [⟨p, "SELL", "0"⟩] t2)
          = .ok ⟨sortLevels opp, sortLevels (pre ++ post), t2⟩ := e
      rw [sortLevels_eq_of_pairwise hpp, sortLevels_eq_of_pairwise hs2] at e2
      exact e2
  · simp only [if_neg hzs]
    have hacs : applyChangeSides (pre ++ l :: post) opp (Change.mk p "BUY" s)
        = (pre ++ PriceLevel.mk l.price (parseDec s) :: post, opp) :=
      applyChangeSides_overwrite pre post opp l _ hzs hpre hl hopp
    have hacss : applyChangeSides (pre ++ l :: post) opp (Change.mk p "SELL" s)
        = (pre ++ PriceLevel.mk l.price (parseDec s) :: post, opp) :=
      applyChangeSides_overwrite pre post opp l _ hzs hpre hl hopp
    constructor
    · have e : update (some ⟨pre ++ l :: post, opp, t1⟩) (.priceChange [⟨p, "BUY", s⟩] t2)
          = .ok ⟨sortLevels (applyChange (pre ++ l :: post, opp) (Change.mk p "BUY" s)).1,
            sortLevels (applyChange (pre ++ l :: post, opp) (Change.mk p "BUY" s)).2, t2⟩ :=
        update_priceChange_single _ _ _
      rw [applyChange_buy_sides _ _ _ rfl, hacs] at e
      have e2 : update (some ⟨pre ++ l :: post, opp, t1⟩) (.priceChange [⟨p, "BUY", s⟩] t2)
          = .ok ⟨sortLevels (pre ++ PriceLevel.mk l.price (parseDec s) :: post),
              sortLevels opp, t2⟩ := e
      rw [sortLevels_eq_of_pairwise hrep, sortLevels_eq_of_pairwise hs2] at e2
      exact e2
    · have e : update (some ⟨opp, pre ++ l :: post, t1⟩) (.priceChange [⟨p, "SELL", s⟩] t2)
          = .ok ⟨sortLevels (applyChange (opp, pre ++ l :: post) (Change.mk p "SELL" s)).1,
            sortLevels (applyChange (opp, pre ++ l :: post) (Change.mk p "SELL" s)).2, t2⟩ :=
        update_priceChange_single _ _ _
      rw [applyChange_sell_sides _ _ _ (show ("SELL" : String) ≠ "BUY" from by decide), hacss] at e
      have e2 : update (some ⟨opp, pre ++ l :: post, t1⟩) (.priceChange [⟨p, "SELL", s⟩] t2)
          = .ok ⟨sortLevels opp,
              sortLevels (pre ++ PriceLevel.mk l.price (parseDec s) :: post), t2⟩ := e
      rw [sortLevels_eq_of_pairwise hrep, sortLevels_eq_of_pairwise hs2] at e2
      exact e2

/-- Witness for the amended C4: the size string `0.0` denotes zero but is not
the literal `"0"`, so the level survives with its size overwritten to 0. -/
theorem c4_removal_requires_zero_string_witness :
    (update (some ⟨[PriceLevel.mk "0.5" 10], [], "t0"⟩)
        (.priceChange [⟨"0.5", "BUY", "0.0"⟩] "t1")
      = .ok ⟨[PriceLevel.mk "0.5" (parseDec "0.0")], [], "t1"⟩)
    ∧ parseDec "0.0" = 0 :=
  ⟨(c4_removal_requires_zero_string "0.5" "0.0" "t0" "t1" [] [] []
      (PriceLevel.mk "0.5" 10) (by simp) rfl (by simp) (by simp) (by simp)).1,
   by decide⟩

/-- Counterexample to C4 as stated: a Delta whose size is the string `0.0`
(denoting decimal zero) does not remove the existing level at the price — it
overwrites the level's size with 0 and keeps the level. -/
theorem c4_decimal_zero_counterexample :
    update (some ⟨[PriceLevel.mk "0.5" 10], [], "t0"⟩)
        (.priceChange [⟨"0.5", "BUY", "0.0"⟩] "t1")
      = .ok ⟨[PriceLevel.mk "0.5" 0], [], "t1"⟩
    ∧ update (some ⟨[PriceLevel.mk "0.5" 10], [], "t0"⟩)
        (.priceChange [⟨"0.5", "BUY", "0.0"⟩] "t1")
      ≠ .ok ⟨[], [], "t1"⟩ :=
  ⟨by decide, by decide⟩

/-- Helper for C9: the fold of `_generate_states` over a log extended with
later events agrees with the fold over the original log on the retained states
of the original log. -/
theorem genFrom_append_take :
    ∀ (evs : List Event) {more : List Event} {prev : Option BookState}
      {l : List (Option BookState)},
      genFrom prev (evs ++ more) = .ok l →
      genFrom prev evs = .ok (l.take evs.length)
  | [], _, _, _, _ => by simp [genFrom]
  | e :: es, more, prev, l, h => by
    rw [List.cons_append] at h
    simp only [genFrom] at h ⊢
    cases hu : update prev e with
    | error err =>
      rw [hu] at h
      exact Except.noConfusion h
    | ok s =>
      rw [hu] at h
      have h2 : (match genFrom (some s) (es ++ more) with
          | Except.error err => (Except.error err : Except UpdateError (List (Option BookState)))
          | Except.ok rest => Except.ok (some s :: rest)) = .ok l := h
      cases hg : genFrom (some s) (es ++ more) with
      | error err =>
        rw [hg] at h2
        exact Except.noConfusion h2
      | ok rest =>
        rw [hg] at h2
        have hred : (Except.ok (some s :: rest) : Except UpdateError (List (Option BookState)))
            = .ok l := h2
        injection hred with h'
        subst h'
        show (match genFrom (some s) es with
            | Except.error err => (Except.error err : Except UpdateError (List (Option BookState)))
            | Except.ok r => Except.ok (some s :: r))
          = Except.ok (List.take (e :: es).length (some s :: rest))
        rw [genFrom_append_take es hg]
        exact rfl

/-- Claim C9 (confirmed): the transition is pure — the source deep-copies the
prior state (`copy.deepcopy`) before mutating, so applying later events never
alters earlier retained states: the state series built from an extended log
has the original log's series as its initial segment. -/
theorem c9_retained_states_stable (evs more : List Event)
    (l : List (Option BookState))
    (h : generateStates (evs ++ more) = .ok l) :
    generateStates evs = .ok (l.take (evs.length + 1)) := by
  simp only [generateStates] at h ⊢
  cases hg : genFrom none (evs ++ more) with
  | error err => rw [hg] at h; exact Except.noConfusion h
  | ok states =>
    rw [hg] at h
    injection h with h'
    subst h'
    rw [genFrom_append_take evs hg]
    exact rfl

/-- Witness for C9: a snapshot followed by a later delta; the one-event series
is the two-entry initial segment of the two-event series. -/
theorem c9_retained_states_stable_witness :
    generateStates [Event.book [PriceLevel.mk "0.5" 3] [] "1"]
      = .ok ([none, some ⟨[PriceLevel.mk "0.5" 3], [], "1"⟩,
          some ⟨[], [], "2"⟩].take 2) :=
  c9_retained_states_stable [Event.book [PriceLevel.mk "0.5" 3] [] "1"]
    [Event.priceChange [⟨"0.5", "BUY", "0"⟩] "2"]
    [none, some ⟨[PriceLevel.mk "0.5" 3], [], "1"⟩, some ⟨[], [], "2"⟩]
    (by decide)

/-- Claim C8 (code_bug): `load_data_cache`'s docstring (and the spec) say the
restricted log keeps entries with timestamps greater than OR EQUAL to the
given one, but the code scans for the first entry with a STRICTLY greater
timestamp, so an entry whose timestamp equals the reset timestamp is dropped:
resetting `[1000, 2000]` from 1000 keeps only the 2000 entry. -/
theorem c8_reset_drops_equal_timestamp :
    loadDataCache [⟨1000, "e1"⟩, ⟨2000, "e2"⟩] (some 1000) = some [⟨2000, "e2"⟩]
    ∧ loadDataCache [⟨1000, "e1"⟩, ⟨2000, "e2"⟩] (some 1000)
      ≠ some [⟨1000, "e1"⟩, ⟨2000, "e2"⟩] :=
  ⟨by decide, by decide⟩

end Polymarket
